import Mathlib

/-!
Verification of `procrustes/procrustes_two_sided_orthogonal_single_transformation.py`
(class `TwoSidedOrthogonalSingleTransformationProcrustes`).

Shallow embedding conventions:
* a numpy 2D float array of shape n×n is `Mat n := Matrix (Fin n) (Fin n) ℚ`;
  floating-point values and comparisons are modelled exactly in `ℚ`;
* the class methods inherited from `procrustes/base.py` and the class
  `OrthogonalProcrustes` from `procrustes/procrustes_orthogonal.py` are code of
  this repository that is not under `src/`: they are modelled as components of
  an `Externals` record, i.e. as abstract function parameters whose contracts
  come from the spec (sections 4.2, 4.5 and 6).  The logic of `calculate` and of
  the `__init__` symmetry validation - the code under verification - is
  translated line by line from the source;
* `raise ValueError(msg)` becomes `Except.error msg`; a normal return becomes
  `Except.ok` of a `CalcResult` record mirroring the returned 7-tuple, in which
  a Python `None` is `Option.none`.
-/

/-- An n×n real array with exact rational entries standing for floats. -/
abbrev Mat (n : ℕ) : Type := Matrix (Fin n) (Fin n) ℚ

/-- Signature of `Procrustes.double_sided_procrustes_error(array_a, array_b,
u_left, u_right)` from `procrustes/base.py` (not under `src/`): per spec
section 4.5 it returns the Frobenius norm of `A·U_right − U_left·B`.  It is kept
abstract because its defining code is not in the repository snapshot. -/
abbrev ErrFn (n : ℕ) : Type := Mat n → Mat n → Mat n → Mat n → ℚ

/-- The external collaborators used by `calculate`, all defined in files of the
repository that are not under `src/` (`procrustes/base.py`,
`procrustes/procrustes_orthogonal.py`).  Modelled from the spec (sections 4.2
and 6) as abstract deterministic functions:
* `is_diagonalizable m`: the Bool returned by `self.is_diagonalizable(m)`;
* `eigenvalue_decomposition m`: the pair `(sigma, u)` returned by
  `self.eigenvalue_decomposition(m)`;
* `singular_value_decomposition m`: the triple `(u, sigma, v_trans)` returned by
  `self.singular_value_decomposition(m)`;
* `double_sided_procrustes_error`: see `ErrFn`;
* `orthogonal_solve x y`: the first component `u_approx` of
  `OrthogonalProcrustes(x, y, ...).calculate()`;
* `map_a_b u_left u_right preserve_symmetry translate_symmetrically`: the value
  stored into `self.transformation` by `self.map_a_b(...)`, with result type a
  parameter `T` since no claim inspects it. -/
structure Externals (n : ℕ) (T : Type) where
  is_diagonalizable : Mat n → Bool
  eigenvalue_decomposition : Mat n → (Fin n → ℚ) × Mat n
  singular_value_decomposition : Mat n → Mat n × (Fin n → ℚ) × Mat n
  double_sided_procrustes_error : ErrFn n
  orthogonal_solve : Mat n → Mat n → Mat n
  map_a_b : Mat n → Mat n → Bool → Bool → T

/-- The 7-tuple returned by `calculate`:
`(u_approx, u_best, array_transformed_approx, array_transformed_best,
error_approx, error_best, self.transformation)`, where fields still holding
their Python `None` initialisation are `none`. -/
structure CalcResult (n : ℕ) (T : Type) where
  u_approx : Option (Mat n)
  u_best : Option (Mat n)
  array_transformed_approx : Option (Mat n)
  array_transformed_best : Option (Mat n)
  error_approx : Option ℚ
  error_best : Option ℚ
  transformation : T

/-- `list(itertools.product((-1., 1.), repeat=n))` (source line 95): the 2^n
sign vectors, enumerated with the first coordinate varying slowest and `-1`
before `1`, i.e. in lexicographic order. -/
def sign_lists : ℕ → List (List ℚ)
  | 0 => [[]]
  | n + 1 =>
    ((sign_lists n).map fun d => -1 :: d) ++ ((sign_lists n).map fun d => 1 :: d)

/-- `np.dot(np.dot(u_a, np.diag(diag_vec_list[i])), u_a0.T)` (source line 105):
the trial transformation `U_A · diag(d) · U_B'`. -/
def trial_matrix (n : ℕ) (u_a u_a0 : Mat n) (d : List ℚ) : Mat n :=
  u_a * Matrix.diagonal (fun i : Fin n => d.getD i 0) * u_a0.transpose

/-- The error of one trial of the sign-search (source line 107):
`self.double_sided_procrustes_error(array_a, array_b, u_trial, u_trial)`. -/
def trial_error (n : ℕ) (err : ErrFn n) (a b u_a u_a0 : Mat n) (d : List ℚ) : ℚ :=
  err a b (trial_matrix n u_a u_a0 d) (trial_matrix n u_a u_a0 d)

/-- The sign-search loop body (source lines 103-116): iterate over the
remaining sign vectors carrying the accumulator `(u_best, error_best)`;
`break` on `error < tol`, update the accumulator on `error < error_best`. -/
def sign_search_go (n : ℕ) (err : ErrFn n) (a b u_a u_a0 : Mat n) (tol : ℚ) :
    List (List ℚ) → Mat n → ℚ → Mat n × ℚ
  | [], u_best, error_best => (u_best, error_best)
  | d :: ds, u_best, error_best =>
    let u_trial := trial_matrix n u_a u_a0 d
    let e := err a b u_trial u_trial
    if e < tol then (u_trial, e)
    else if e < error_best then sign_search_go n err a b u_a u_a0 tol ds u_trial e
    else sign_search_go n err a b u_a u_a0 tol ds u_best error_best

/-- The whole sign-search (source lines 93-116): the loop over all of
`sign_lists n` (the source iterates `for i in range(2**n)` over the list of
length 2^n, which is the same traversal), started with the sentinel
`error_best = 1.e5` and `u_best = u_a`. -/
def sign_search (n : ℕ) (err : ErrFn n) (a b u_a u_a0 : Mat n) (tol : ℚ) : Mat n × ℚ :=
  sign_search_go n err a b u_a u_a0 tol (sign_lists n) u_a 100000

/-- `np.multiply(abs(u_a), abs(u_a0).T)` (source line 77): the elementwise
product of the entrywise absolute values of the two eigenvector bases. -/
def u_umeyama_matrix (n : ℕ) (u_a u_a0 : Mat n) : Mat n :=
  Matrix.of fun i j => |u_a i j| * |u_a0 j i|

/-- `u_approx[abs(u_approx) < 1.e-8] = 0` (source line 83): snap every entry of
magnitude strictly below 1e-8 to exactly 0. -/
def snap_small_to_zero (n : ℕ) (m : Mat n) : Mat n :=
  Matrix.of fun i j => if |m i j| < 1 / 10 ^ 8 then 0 else m i j

/-- The spectral-approximation path (source lines 71-88), producing
`(u_approx, error_approx, array_transformed_approx)`. -/
def approx_path (n : ℕ) (T : Type) (E : Externals n T) (a b : Mat n) :
    Mat n × ℚ × Mat n :=
  let u_a := (E.eigenvalue_decomposition a).2
  let u_a0 := (E.eigenvalue_decomposition b).2
  let u_umeyama := u_umeyama_matrix n u_a u_a0
  let u_approx := snap_small_to_zero n (E.orthogonal_solve 1 u_umeyama)
  let error_approx := E.double_sided_procrustes_error a b u_approx u_approx
  (u_approx, error_approx, a * u_approx)

/-- The sign-search path (source lines 90-117), producing
`(u_best, error_best, array_transformed_best)`; `n = sigma_a.shape[0]` equals
the common square dimension. -/
def best_path (n : ℕ) (T : Type) (E : Externals n T) (a b : Mat n) (tol : ℚ) :
    Mat n × ℚ × Mat n :=
  let u_a := (E.singular_value_decomposition a).1
  let u_a0 := (E.singular_value_decomposition b).1
  let r := sign_search n E.double_sided_procrustes_error a b u_a u_a0 tol
  (r.1, r.2, r.1.transpose * a * r.1)

/-- `calculate(return_u_approx, return_u_best, tol)` (source lines 38-151).
`array_a`, `array_b` and `translate_symmetrically` are the object fields read
by the method.  Line 64-66 demotes `return_u_approx` to `False` when either
input fails the diagonalizability check; the final four branches mirror source
lines 119-151, including the sentence raised when no transformation remains
selected. -/
def calculate (n : ℕ) (T : Type) (E : Externals n T) (array_a array_b : Mat n)
    (translate_symmetrically : Bool) (return_u_approx return_u_best : Bool)
    (tol : ℚ) : Except String (CalcResult n T) :=
  let approx_requested :=
    if !(E.is_diagonalizable array_a) || !(E.is_diagonalizable array_b) then false
    else return_u_approx
  if approx_requested && return_u_best then
    let ap := approx_path n T E array_a array_b
    let bp := best_path n T E array_a array_b tol
    let sel := if ap.2.1 ≥ bp.2.1 then (bp.1, bp.2.1) else (ap.1, ap.2.1)
    Except.ok (CalcResult.mk (some ap.1) (some sel.1) (some ap.2.2) (some bp.2.2)
      (some ap.2.1) (some sel.2)
      (E.map_a_b sel.1.transpose sel.1 true translate_symmetrically))
  else if approx_requested then
    let ap := approx_path n T E array_a array_b
    Except.ok (CalcResult.mk (some ap.1) none (some ap.2.2) none
      (some ap.2.1) none
      (E.map_a_b ap.1.transpose ap.1 true translate_symmetrically))
  else if return_u_best then
    let bp := best_path n T E array_a array_b tol
    Except.ok (CalcResult.mk none (some bp.1) none (some bp.2.2)
      none (some bp.2.1)
      (E.map_a_b bp.1.transpose bp.1 true translate_symmetrically))
  else
    Except.error " Cannot complete analysis. You must select at least one transformation."

/-- `(abs(m - m.T) > 1.e-10).all()` (source line 35): every entry of
`|m - m.T|`, the diagonal included, exceeds 1e-10. -/
def all_entries_violate (n : ℕ) (m : Mat n) : Prop :=
  ∀ i j : Fin n, 1 / 10 ^ 10 < |m i j - m j i|

instance all_entries_violate_dec (n : ℕ) (m : Mat n) :
    Decidable (all_entries_violate n m) := by
  unfold all_entries_violate; infer_instance

/-- The symmetry validation performed at the end of `__init__` (source lines
35-36): raise iff `(abs(a - a.T) > 1e-10).all() or (abs(b - b.T) > 1e-10).all()`. -/
def init_symmetry_check (n : ℕ) (a b : Mat n) : Except String Unit :=
  if all_entries_violate n a ∨ all_entries_violate n b then
    Except.error "Arrays array_a and array_b must both be symmetric for this analysis."
  else Except.ok ()

/-- The mutable object state read and written by `calculate`: the preprocessed
input pair and `translate_symmetrically` are set by `__init__` and only read;
`self.transformation` is overwritten by `map_a_b` on every successful call
(`none` models its state before the first call). -/
structure ObjState (n : ℕ) (T : Type) where
  array_a : Mat n
  array_b : Mat n
  translate_symmetrically : Bool
  transformation : Option T

/-- `calculate` viewed as a method acting on the object state: it returns the
7-tuple and the state after the call, in which only `self.transformation` may
have changed (it is overwritten on success and untouched when the call
raises). -/
def calculate_obj (n : ℕ) (T : Type) (E : Externals n T) (s : ObjState n T)
    (return_u_approx return_u_best : Bool) (tol : ℚ) :
    Except String (CalcResult n T) × ObjState n T :=
  match calculate n T E s.array_a s.array_b s.translate_symmetrically
      return_u_approx return_u_best tol with
  | Except.ok r =>
    (Except.ok r,
     ObjState.mk s.array_a s.array_b s.translate_symmetrically (some r.transformation))
  | Except.error e => (Except.error e, s)

/-- Modelled from the spec: `double_sided_procrustes_error` from
`procrustes/base.py` (not under `src/`) returns `‖A·U_right − U_left·B‖_F`
(spec section 4.5).  For 1×1 matrices the Frobenius norm of `[[x]]` is `|x|`,
so on that dimension the spec formula is computed exactly in `ℚ`. -/
def err_dim1 : ErrFn 1 := fun a b u_left u_right => |(a * u_right - u_left * b) 0 0|


/-- A concrete externals instance on 1×1 matrices used to instantiate the
theorems: `is_diagonalizable` answers `true` (a 1×1 matrix always has a full
eigenbasis), the eigendecomposition stub returns the matrix itself as basis,
the SVD stub returns `(!![1], 0, !![1])` (numpy's factors for a positive 1×1
matrix), the error function is the exact 1×1 Frobenius error and the one-sided
solver returns its target. -/
def ext_dim1 : Externals 1 Unit :=
  Externals.mk (fun _ => true) (fun m => (fun _ => 0, m))
    (fun _ => (!![1], fun _ => 0, !![1])) err_dim1 (fun _ y => y) (fun _ _ _ _ => ())

/-- Like `ext_dim1` but with a diagonalizability check that fails, to exercise
the demotion of `return_u_approx` at source lines 64-66. -/
def ext_nondiag : Externals 1 Unit :=
  Externals.mk (fun _ => false) (fun m => (fun _ => 0, m))
    (fun _ => (!![1], fun _ => 0, !![1])) err_dim1 (fun _ y => y) (fun _ _ _ _ => ())

/-! ### Equation lemmas and invariants of the sign-search loop -/

theorem sign_search_go_nil (n : ℕ) (err : ErrFn n) (a b u_a u_a0 : Mat n) (tol : ℚ)
    (ub : Mat n) (eb : ℚ) :
    sign_search_go n err a b u_a u_a0 tol [] ub eb = (ub, eb) := rfl

theorem sign_search_go_cons (n : ℕ) (err : ErrFn n) (a b u_a u_a0 : Mat n) (tol : ℚ)
    (d : List ℚ) (ds : List (List ℚ)) (ub : Mat n) (eb : ℚ) :
    sign_search_go n err a b u_a u_a0 tol (d :: ds) ub eb =
      (if trial_error n err a b u_a u_a0 d < tol then
        (trial_matrix n u_a u_a0 d, trial_error n err a b u_a u_a0 d)
      else if trial_error n err a b u_a u_a0 d < eb then
        sign_search_go n err a b u_a u_a0 tol ds (trial_matrix n u_a u_a0 d)
          (trial_error n err a b u_a u_a0 d)
      else sign_search_go n err a b u_a u_a0 tol ds ub eb) := rfl

/-- If no remaining trial error is below `tol` nor below the current best, the
loop finishes with the accumulator unchanged. -/
theorem sign_search_go_no_update (n : ℕ) (err : ErrFn n) (a b u_a u_a0 : Mat n) (tol : ℚ) :
    ∀ (l : List (List ℚ)) (ub : Mat n) (eb : ℚ),
      (∀ d ∈ l, ¬ trial_error n err a b u_a u_a0 d < tol ∧
        ¬ trial_error n err a b u_a u_a0 d < eb) →
      sign_search_go n err a b u_a u_a0 tol l ub eb = (ub, eb) := by
  intro l
  induction l with
  | nil => intro ub eb _; rfl
  | cons d ds ih =>
    intro ub eb h
    have hd := h d (List.mem_cons_self d ds)
    rw [sign_search_go_cons, if_neg hd.1, if_neg hd.2]
    exact ih ub eb fun x hx => h x (List.mem_cons_of_mem d hx)

/-- The loop stops at the first trial whose error is strictly below `tol`,
whatever the accumulator holds at that point. -/
theorem sign_search_go_break (n : ℕ) (err : ErrFn n) (a b u_a u_a0 : Mat n) (tol : ℚ) :
    ∀ (l₁ : List (List ℚ)) (d : List ℚ) (l₂ : List (List ℚ)) (ub : Mat n) (eb : ℚ),
      (∀ x ∈ l₁, ¬ trial_error n err a b u_a u_a0 x < tol) →
      trial_error n err a b u_a u_a0 d < tol →
      sign_search_go n err a b u_a u_a0 tol (l₁ ++ d :: l₂) ub eb =
        (trial_matrix n u_a u_a0 d, trial_error n err a b u_a u_a0 d) := by
  intro l₁
  induction l₁ with
  | nil =>
    intro d l₂ ub eb _ hd
    rw [List.nil_append, sign_search_go_cons, if_pos hd]
  | cons x l₁ ih =>
    intro d l₂ ub eb h hd
    have hx := h x (List.mem_cons_self x l₁)
    have h' := fun y hy => h y (List.mem_cons_of_mem x hy)
    rw [List.cons_append, sign_search_go_cons, if_neg hx]
    by_cases hlt : trial_error n err a b u_a u_a0 x < eb
    · rw [if_pos hlt]; exact ih d l₂ _ _ h' hd
    · rw [if_neg hlt]; exact ih d l₂ _ _ h' hd

/-- The enumeration has exactly 2^n sign vectors. -/
theorem sign_lists_length (n : ℕ) : (sign_lists n).length = 2 ^ n := by
  induction n with
  | zero => rfl
  | succ n ih =>
    simp only [sign_lists, List.length_append, List.length_map, ih, pow_succ]
    ring

/-- The enumeration is exhaustive: every length-n vector with entries in
{-1, 1} occurs in `sign_lists n`. -/
theorem mem_sign_lists (n : ℕ) :
    ∀ v : List ℚ, v.length = n → (∀ x ∈ v, x = -1 ∨ x = 1) → v ∈ sign_lists n := by
  induction n with
  | zero =>
    intro v hv _
    rw [List.length_eq_zero] at hv
    simp [hv, sign_lists]
  | succ n ih =>
    intro v hv hx
    match v with
    | [] => simp at hv
    | x :: v' =>
      have hv' : v'.length = n := by
        simpa using hv
      have hx' : ∀ y ∈ v', y = -1 ∨ y = 1 := fun y hy => hx y (List.mem_cons_of_mem x hy)
      have hmem := ih v' hv' hx'
      rcases hx x (List.mem_cons_self x v') with h | h
      · subst h
        exact List.mem_append_left _ (List.mem_map.2 ⟨v', hmem, rfl⟩)
      · subst h
        exact List.mem_append_right _ (List.mem_map.2 ⟨v', hmem, rfl⟩)

/-- The enumeration is strictly increasing in the lexicographic order on
vectors (with -1 < 1), hence deterministic and duplicate-free: this is the
fixed order of `itertools.product((-1., 1.), repeat=n)`. -/
theorem sign_lists_pairwise (n : ℕ) :
    (sign_lists n).Pairwise fun u v => List.Lex (· < ·) u v := by
  induction n with
  | zero => simp [sign_lists]
  | succ n ih =>
    rw [sign_lists, List.pairwise_append]
    refine ⟨?_, ?_, ?_⟩
    · exact ih.map _ fun u v h => List.Lex.cons h
    · exact ih.map _ fun u v h => List.Lex.cons h
    · intro x hx y hy
      rcases List.mem_map.1 hx with ⟨u, _, rfl⟩
      rcases List.mem_map.1 hy with ⟨v, _, rfl⟩
      exact List.Lex.rel (by norm_num)

/-- Strict-improvement folding: when no remaining error is below `tol` and some
remaining error beats the current best, the loop returns the first trial
attaining the minimum of the remaining errors. -/
theorem sign_search_go_first_min (n : ℕ) (err : ErrFn n) (a b u_a u_a0 : Mat n) (tol : ℚ) :
    ∀ (l : List (List ℚ)) (ub : Mat n) (eb : ℚ),
      (∀ d ∈ l, ¬ trial_error n err a b u_a u_a0 d < tol) →
      (∃ d ∈ l, trial_error n err a b u_a u_a0 d < eb) →
      ∃ i : Fin l.length,
        sign_search_go n err a b u_a u_a0 tol l ub eb =
          (trial_matrix n u_a u_a0 (l.get i), trial_error n err a b u_a u_a0 (l.get i)) ∧
        trial_error n err a b u_a u_a0 (l.get i) < eb ∧
        (∀ j : Fin l.length, trial_error n err a b u_a u_a0 (l.get i) ≤
          trial_error n err a b u_a u_a0 (l.get j)) ∧
        (∀ j : Fin l.length, (j : ℕ) < (i : ℕ) →
          trial_error n err a b u_a u_a0 (l.get i) < trial_error n err a b u_a u_a0 (l.get j)) := by
  intro l
  induction l with
  | nil =>
    intro ub eb _ hex
    rcases hex with ⟨d, hd, _⟩
    exact absurd hd (List.not_mem_nil d)
  | cons d ds ih =>
    intro ub eb hnt hex
    have hdnt : ¬ trial_error n err a b u_a u_a0 d < tol := hnt d (List.mem_cons_self d ds)
    have hnt' : ∀ x ∈ ds, ¬ trial_error n err a b u_a u_a0 x < tol :=
      fun x hx => hnt x (List.mem_cons_of_mem d hx)
    by_cases hlt : trial_error n err a b u_a u_a0 d < eb
    · by_cases hex2 :
        ∃ x ∈ ds, trial_error n err a b u_a u_a0 x < trial_error n err a b u_a u_a0 d
      · obtain ⟨i', heq, hlt', hmin, hfirst⟩ :=
          ih (trial_matrix n u_a u_a0 d) (trial_error n err a b u_a u_a0 d) hnt' hex2
        refine ⟨i'.succ, ?_, ?_, ?_, ?_⟩
        · rw [sign_search_go_cons, if_neg hdnt, if_pos hlt, heq]; rfl
        · exact lt_trans hlt' hlt
        · intro j
          obtain ⟨jv, hjlt⟩ := j
          cases jv with
          | zero => exact le_of_lt hlt'
          | succ jv => exact hmin ⟨jv, Nat.lt_of_succ_lt_succ hjlt⟩
        · intro j hj
          obtain ⟨jv, hjlt⟩ := j
          cases jv with
          | zero => exact hlt'
          | succ jv =>
            exact hfirst ⟨jv, Nat.lt_of_succ_lt_succ hjlt⟩ (Nat.lt_of_succ_lt_succ hj)
      · push_neg at hex2
        have hrest :
            sign_search_go n err a b u_a u_a0 tol ds (trial_matrix n u_a u_a0 d)
              (trial_error n err a b u_a u_a0 d) =
              (trial_matrix n u_a u_a0 d, trial_error n err a b u_a u_a0 d) :=
          sign_search_go_no_update n err a b u_a u_a0 tol ds _ _
            (fun x hx => ⟨hnt' x hx, not_lt.2 (hex2 x hx)⟩)
        refine ⟨⟨0, Nat.succ_pos ds.length⟩, ?_, hlt, ?_, ?_⟩
        · rw [sign_search_go_cons, if_neg hdnt, if_pos hlt, hrest]; rfl
        · intro j
          obtain ⟨jv, hjlt⟩ := j
          cases jv with
          | zero => exact le_refl _
          | succ jv =>
            exact hex2 _ (List.get_mem ds jv (Nat.lt_of_succ_lt_succ hjlt))
        · intro j hj
          exact absurd hj (Nat.not_lt_zero _)
    · have hex2 : ∃ x ∈ ds, trial_error n err a b u_a u_a0 x < eb := by
        rcases hex with ⟨x, hx, hxe⟩
        rcases List.mem_cons.1 hx with rfl | hx'
        · exact absurd hxe hlt
        · exact ⟨x, hx', hxe⟩
      obtain ⟨i', heq, hlt', hmin, hfirst⟩ := ih ub eb hnt' hex2
      have hdge : eb ≤ trial_error n err a b u_a u_a0 d := not_lt.1 hlt
      refine ⟨i'.succ, ?_, hlt', ?_, ?_⟩
      · rw [sign_search_go_cons, if_neg hdnt, if_neg hlt, heq]; rfl
      · intro j
        obtain ⟨jv, hjlt⟩ := j
        cases jv with
        | zero => exact le_trans (le_of_lt hlt') hdge
        | succ jv => exact hmin ⟨jv, Nat.lt_of_succ_lt_succ hjlt⟩
      · intro j hj
        obtain ⟨jv, hjlt⟩ := j
        cases jv with
        | zero => exact lt_of_lt_of_le hlt' hdge
        | succ jv =>
          exact hfirst ⟨jv, Nat.lt_of_succ_lt_succ hjlt⟩ (Nat.lt_of_succ_lt_succ hj)

/-- Evaluation of the spec-modelled 1×1 error on a trial of the sign-search
with bases `!![1]`: the trial matrix is `!![c]` and the error is
`|p·c − c·q|`. -/
theorem trial_error_dim1_eval (p q c : ℚ) :
    trial_error 1 err_dim1 !![p] !![q] !![1] !![1] [c] = |p * c - c * q| := by
  simp [trial_error, trial_matrix, err_dim1, Matrix.mul_apply, Fin.sum_univ_one,
    Matrix.diagonal_apply_eq, Matrix.transpose_apply, Matrix.cons_val_fin_one, Matrix.of_apply,
    Matrix.vecHead, Matrix.cons_val_zero, Pi.smul_apply, smul_eq_mul]

/-! ### Claim theorems about the sign-search (C3, C4, C6) -/

/-- C4: the sign-search loop short-circuits at the first enumerated sign
pattern whose error is strictly below `tol`: that trial's transformation and
error are returned, whatever the sign patterns after it (`l₂`) and whatever
best-so-far the earlier trials (all of error ≥ `tol`) accumulated; the second
conjunct states that a trial with error in `[tol, error_best)` updates the
best-so-far accumulator and continues the loop. -/
theorem sign_search_short_circuit (n : ℕ) (err : ErrFn n) (a b u_a u_a0 : Mat n)
    (tol : ℚ) (l₁ : List (List ℚ)) (d : List ℚ) (l₂ : List (List ℚ))
    (hsplit : sign_lists n = l₁ ++ d :: l₂)
    (hpre : ∀ x ∈ l₁, ¬ trial_error n err a b u_a u_a0 x < tol)
    (hd : trial_error n err a b u_a u_a0 d < tol) :
    sign_search n err a b u_a u_a0 tol =
      (trial_matrix n u_a u_a0 d, trial_error n err a b u_a u_a0 d) ∧
    (∀ (x : List ℚ) (ds : List (List ℚ)) (ub : Mat n) (eb : ℚ),
      ¬ trial_error n err a b u_a u_a0 x < tol → trial_error n err a b u_a u_a0 x < eb →
      sign_search_go n err a b u_a u_a0 tol (x :: ds) ub eb =
        sign_search_go n err a b u_a u_a0 tol ds (trial_matrix n u_a u_a0 x)
          (trial_error n err a b u_a u_a0 x)) := by
  constructor
  · rw [sign_search, hsplit]
    exact sign_search_go_break n err a b u_a u_a0 tol l₁ d l₂ u_a 100000 hpre hd
  · intro x ds ub eb h1 h2
    rw [sign_search_go_cons, if_neg h1, if_pos h2]

/-- Witness for `sign_search_short_circuit`: with a constant-zero error
function the very first sign pattern `[-1]` already has error `0 < 1e-12`, so
the search returns that trial at once. -/
theorem sign_search_short_circuit_w :
    trial_error 1 (fun _ _ _ _ => 0) !![1] !![1] !![1] !![1] [-1] < 1 / 10 ^ 12 ∧
    sign_search 1 (fun _ _ _ _ => 0) !![1] !![1] !![1] !![1] (1 / 10 ^ 12) =
      (trial_matrix 1 !![1] !![1] [-1], 0) :=
  ⟨by norm_num [trial_error],
   (sign_search_short_circuit 1 (fun _ _ _ _ => 0) !![1] !![1] !![1] !![1]
      (1 / 10 ^ 12) [] [-1] [[1]] rfl (fun x hx => absurd hx (List.not_mem_nil x))
      (by norm_num [trial_error])).1⟩

/-- C6: if the sign-search runs and every one of the 2^n trials has error at
least the sentinel 1e5 (and none is below `tol`), the loop never updates its
accumulator, so the returned `u_best` is exactly the unmodified left-singular
basis `U_A` of `array_a` and `error_best` is the sentinel 1e5. -/
theorem best_path_sentinel_fallback (n : ℕ) (T : Type) (E : Externals n T)
    (a b : Mat n) (tol : ℚ)
    (h : ∀ d ∈ sign_lists n,
      ¬ trial_error n E.double_sided_procrustes_error a b
          (E.singular_value_decomposition a).1 (E.singular_value_decomposition b).1 d < tol ∧
      100000 ≤ trial_error n E.double_sided_procrustes_error a b
          (E.singular_value_decomposition a).1 (E.singular_value_decomposition b).1 d) :
    (best_path n T E a b tol).1 = (E.singular_value_decomposition a).1 ∧
    (best_path n T E a b tol).2.1 = 100000 := by
  have hgo := sign_search_go_no_update n E.double_sided_procrustes_error a b
    (E.singular_value_decomposition a).1 (E.singular_value_decomposition b).1 tol
    (sign_lists n) (E.singular_value_decomposition a).1 100000
    (fun d hd => ⟨(h d hd).1, not_lt.2 (h d hd).2⟩)
  constructor
  · show (sign_search n E.double_sided_procrustes_error a b
      (E.singular_value_decomposition a).1 (E.singular_value_decomposition b).1 tol).1 = _
    rw [sign_search, hgo]
  · show (sign_search n E.double_sided_procrustes_error a b
      (E.singular_value_decomposition a).1 (E.singular_value_decomposition b).1 tol).2 = _
    rw [sign_search, hgo]

/-- Witness for `best_path_sentinel_fallback`: on `A = [[300000]]`,
`B = [[100000]]` both trial errors equal `200000 ≥ 1e5`, so the search returns
the untouched SVD basis `!![1]` with the sentinel error. -/
theorem best_path_sentinel_fallback_w :
    (best_path 1 Unit ext_dim1 !![300000] !![100000] (1 / 10 ^ 12)).1 = !![1] ∧
    (best_path 1 Unit ext_dim1 !![300000] !![100000] (1 / 10 ^ 12)).2.1 = 100000 := by
  have hyp : ∀ d ∈ sign_lists 1,
      ¬ trial_error 1 err_dim1 !![300000] !![100000] !![1] !![1] d < 1 / 10 ^ 12 ∧
      100000 ≤ trial_error 1 err_dim1 !![300000] !![100000] !![1] !![1] d := by
    intro d hd
    have hsl : sign_lists 1 = [[-1], [1]] := rfl
    rw [hsl, List.mem_cons, List.mem_singleton] at hd
    rcases hd with rfl | rfl <;>
      rw [trial_error_dim1_eval] <;> norm_num
  exact best_path_sentinel_fallback 1 Unit ext_dim1 !![300000] !![100000] (1 / 10 ^ 12) hyp

/-- C3 (amended): the sign-search enumerates exactly the 2^n sign vectors, in
the strictly increasing (hence deterministic, duplicate-free and exhaustive)
lexicographic order of `itertools.product`, forming `U_A · diag(d) · U_B'` for
each; and provided no trial exits early (no error below `tol`) and at least one
trial error is strictly below the sentinel 1e5, the returned pair is the first
trial (in enumeration order) attaining the minimum trial error. -/
theorem sign_search_enumeration_first_min (n : ℕ) (err : ErrFn n)
    (a b u_a u_a0 : Mat n) (tol : ℚ)
    (hnt : ∀ d ∈ sign_lists n, ¬ trial_error n err a b u_a u_a0 d < tol)
    (hlt : ∃ d ∈ sign_lists n, trial_error n err a b u_a u_a0 d < 100000) :
    (sign_lists n).length = 2 ^ n ∧
    ((sign_lists n).Pairwise fun u v => List.Lex (· < ·) u v) ∧
    (∀ v : List ℚ, v.length = n → (∀ x ∈ v, x = -1 ∨ x = 1) → v ∈ sign_lists n) ∧
    ∃ i : Fin (sign_lists n).length,
      sign_search n err a b u_a u_a0 tol =
        (trial_matrix n u_a u_a0 ((sign_lists n).get i),
         trial_error n err a b u_a u_a0 ((sign_lists n).get i)) ∧
      (∀ j : Fin (sign_lists n).length,
        trial_error n err a b u_a u_a0 ((sign_lists n).get i) ≤
          trial_error n err a b u_a u_a0 ((sign_lists n).get j)) ∧
      (∀ j : Fin (sign_lists n).length, (j : ℕ) < (i : ℕ) →
        trial_error n err a b u_a u_a0 ((sign_lists n).get i) <
          trial_error n err a b u_a u_a0 ((sign_lists n).get j)) := by
  refine ⟨sign_lists_length n, sign_lists_pairwise n, mem_sign_lists n, ?_⟩
  obtain ⟨i, heq, _, hmin, hfirst⟩ := sign_search_go_first_min n err a b u_a u_a0 tol
    (sign_lists n) u_a 100000 hnt hlt
  exact ⟨i, by rw [sign_search]; exact heq, hmin, hfirst⟩

/-- Witness for `sign_search_enumeration_first_min`: on `A = [[2]]`,
`B = [[1]]` both trial errors equal `1`, which is below the sentinel and above
`tol`, so the theorem applies; its first conclusion is the 2^n count. -/
theorem sign_search_enumeration_first_min_w :
    (sign_lists 1).length = 2 ^ 1 := by
  have hnt : ∀ d ∈ sign_lists 1, ¬ trial_error 1 err_dim1 !![2] !![1] !![1] !![1] d < 1 / 10 ^ 12 := by
    intro d hd
    have hsl : sign_lists 1 = [[-1], [1]] := rfl
    rw [hsl, List.mem_cons, List.mem_singleton] at hd
    rcases hd with rfl | rfl <;> rw [trial_error_dim1_eval] <;> norm_num
  have hlt : ∃ d ∈ sign_lists 1, trial_error 1 err_dim1 !![2] !![1] !![1] !![1] d < 100000 := by
    refine ⟨[-1], List.mem_cons_self _ _, ?_⟩
    rw [trial_error_dim1_eval]; norm_num
  exact (sign_search_enumeration_first_min 1 err_dim1 !![2] !![1] !![1] !![1] (1 / 10 ^ 12)
    hnt hlt).1

/-- Full evaluation of the sign-search on `A = [[300000]]`, `B = [[100000]]`
with SVD bases `!![1]`: both trial errors are `200000 ≥ 1e5`, so the sentinel
pair is returned. -/
theorem sign_search_cex_value :
    sign_search 1 err_dim1 !![300000] !![100000] !![1] !![1] (1 / 10 ^ 12) =
      (!![1], 100000) := by
  have h1 : trial_error 1 err_dim1 !![300000] !![100000] !![1] !![1] [-1] = 200000 := by
    rw [trial_error_dim1_eval]; norm_num
  have h2 : trial_error 1 err_dim1 !![300000] !![100000] !![1] !![1] [1] = 200000 := by
    rw [trial_error_dim1_eval]; norm_num
  have hsl : sign_lists 1 = [[-1], [1]] := rfl
  rw [sign_search, hsl, sign_search_go_cons, h1, if_neg (by norm_num), if_neg (by norm_num),
    sign_search_go_cons, h2, if_neg (by norm_num), if_neg (by norm_num), sign_search_go_nil]

/-- C3 counterexample: on the symmetric pair `A = [[300000]]`,
`B = [[100000]]` (whose numpy SVD has `U_A = U_B = [[1]]`) no trial error is
below the default tolerance, every trial error equals `200000`, yet the
sign-search returns error `100000` - the sentinel - which is attained by no
trial, so the returned pair does not attain the minimum trial error. -/
theorem sign_search_not_first_min_cex :
    sign_lists 1 = [[-1], [1]] ∧
    trial_error 1 err_dim1 !![300000] !![100000] !![1] !![1] [-1] = 200000 ∧
    trial_error 1 err_dim1 !![300000] !![100000] !![1] !![1] [1] = 200000 ∧
    ¬ trial_error 1 err_dim1 !![300000] !![100000] !![1] !![1] [-1] < 1 / 10 ^ 12 ∧
    ¬ trial_error 1 err_dim1 !![300000] !![100000] !![1] !![1] [1] < 1 / 10 ^ 12 ∧
    sign_search 1 err_dim1 !![300000] !![100000] !![1] !![1] (1 / 10 ^ 12) =
      (!![1], 100000) ∧
    (sign_search 1 err_dim1 !![300000] !![100000] !![1] !![1] (1 / 10 ^ 12)).2 ≠ 200000 := by
  have h1 : trial_error 1 err_dim1 !![300000] !![100000] !![1] !![1] [-1] = 200000 := by
    rw [trial_error_dim1_eval]; norm_num
  have h2 : trial_error 1 err_dim1 !![300000] !![100000] !![1] !![1] [1] = 200000 := by
    rw [trial_error_dim1_eval]; norm_num
  refine ⟨rfl, h1, h2, ?_, ?_, sign_search_cex_value, ?_⟩
  · rw [h1]; norm_num
  · rw [h2]; norm_num
  · rw [sign_search_cex_value]; norm_num

/-! ### Claim theorems about control flow, validation and selection -/

/-- C1 (amended): when only the approximate transformation is requested
(`return_u_approx = True`, `return_u_best = False`) and either input fails the
diagonalizability check, `calculate` demotes the approx flag (source lines
64-66) and then no candidate remains selected, so it falls into the final
`else` branch and raises the ValueError instead of returning `u_approx = None`. -/
theorem calculate_nondiag_approx_only_raises (n : ℕ) (T : Type) (E : Externals n T)
    (a b : Mat n) (ts : Bool) (tol : ℚ)
    (h : E.is_diagonalizable a = false ∨ E.is_diagonalizable b = false) :
    calculate n T E a b ts true false tol =
      Except.error " Cannot complete analysis. You must select at least one transformation." := by
  rcases h with h | h <;> simp [calculate, h]

/-- Witness for `calculate_nondiag_approx_only_raises`, at the concrete
externals whose diagonalizability check fails. -/
theorem calculate_nondiag_approx_only_raises_w :
    calculate 1 Unit ext_nondiag !![300000] !![100000] false true false (1 / 10 ^ 12) =
      Except.error " Cannot complete analysis. You must select at least one transformation." :=
  calculate_nondiag_approx_only_raises 1 Unit ext_nondiag !![300000] !![100000] false
    (1 / 10 ^ 12) (Or.inl rfl)

/-- C1 counterexample: on the symmetric input pair `A = B = [[0]]` with a
failing diagonalizability check, the call with `return_u_approx=True` and
`return_u_best=False` does not return normally with `u_approx = None` - it
raises the configuration ValueError. -/
theorem calculate_nondiag_approx_only_cex :
    ext_nondiag.is_diagonalizable !![0] = false ∧
    (!![(0 : ℚ)] : Mat 1).transpose = !![(0 : ℚ)] ∧
    calculate 1 Unit ext_nondiag !![0] !![0] false true false (1 / 10 ^ 12) =
      Except.error " Cannot complete analysis. You must select at least one transformation." := by
  refine ⟨rfl, ?_, by simp [calculate, ext_nondiag]⟩
  ext i j
  fin_cases i
  fin_cases j
  rfl

/-- C2 (code evaluated at the failing input): `A = [[1,5],[0,1]]` violates
symmetry at entry (0,1) by `|5 - 0| > 1e-10` and `B` is the symmetric
identity, yet the `__init__` validation accepts the pair without raising:
`(abs(A - A.T) > 1e-10).all()` demands that every entry - the diagonal
included, where the difference is always 0 - exceeds the tolerance, so the
check can never fire on a nonempty matrix. -/
theorem init_symmetry_check_misses_asymmetric :
    1 / 10 ^ 10 < |(!![1, 5; 0, 1] : Mat 2) 0 1 - (!![1, 5; 0, 1] : Mat 2) 1 0| ∧
    init_symmetry_check 2 !![1, 5; 0, 1] !![1, 0; 0, 1] = Except.ok () := by
  constructor
  · norm_num
  · have hno : ¬ (all_entries_violate 2 !![1, 5; 0, 1] ∨ all_entries_violate 2 !![1, 0; 0, 1]) := by
      rintro (h | h)
      · have h0 := h 0 0
        norm_num at h0
      · have h0 := h 0 0
        norm_num at h0
    rw [init_symmetry_check, if_neg hno]

/-- Full evaluation of the sign-search on `A = [[2]]`, `B = [[1]]` with SVD
bases `!![1]`: both trial errors equal `1`, so the first trial is kept. -/
theorem sign_search_two_one_value :
    sign_search 1 err_dim1 !![2] !![1] !![1] !![1] (1 / 10 ^ 12) =
      (trial_matrix 1 !![1] !![1] [-1], 1) := by
  have h1 : trial_error 1 err_dim1 !![2] !![1] !![1] !![1] [-1] = 1 := by
    rw [trial_error_dim1_eval]; norm_num
  have h2 : trial_error 1 err_dim1 !![2] !![1] !![1] !![1] [1] = 1 := by
    rw [trial_error_dim1_eval]; norm_num
  have hsl : sign_lists 1 = [[-1], [1]] := rfl
  simp only [sign_search, hsl, sign_search_go_cons, sign_search_go_nil, h1, h2]
  norm_num

/-- Evaluation of the approximate-path error on `ext_dim1` with `A = [[2]]`,
`B = [[1]]`: the Umeyama matrix is `[[2]]`, untouched by the stub solver and
by the snap, so the error is `|2·2 − 2·1| = 2`. -/
theorem approx_path_two_one_error :
    (approx_path 1 Unit ext_dim1 !![2] !![1]).2.1 = 2 := by
  simp [approx_path, ext_dim1, u_umeyama_matrix, snap_small_to_zero, err_dim1,
    Matrix.mul_apply, Fin.sum_univ_one, Matrix.of_apply, Matrix.cons_val_fin_one,
    Matrix.vecHead, Matrix.cons_val_zero]
  norm_num

/-- C5: when both an approximate and a best candidate are computed,
`error_approx` is compared with `error_best` and the candidate with the
strictly lower error becomes the final `(u_best, error_best)`; on a tie
(`error_approx = error_best`, included in the first conjunct's `≤`) the
sign-search candidate is kept.  The other five returned components do not
depend on the selection. -/
theorem calculate_selects_lower_error (n : ℕ) (T : Type) (E : Externals n T)
    (a b : Mat n) (ts : Bool) (tol : ℚ)
    (hda : E.is_diagonalizable a = true) (hdb : E.is_diagonalizable b = true) :
    ((best_path n T E a b tol).2.1 ≤ (approx_path n T E a b).2.1 →
      calculate n T E a b ts true true tol = Except.ok (CalcResult.mk
        (some (approx_path n T E a b).1) (some (best_path n T E a b tol).1)
        (some (approx_path n T E a b).2.2) (some (best_path n T E a b tol).2.2)
        (some (approx_path n T E a b).2.1) (some (best_path n T E a b tol).2.1)
        (E.map_a_b (best_path n T E a b tol).1.transpose (best_path n T E a b tol).1
          true ts))) ∧
    ((approx_path n T E a b).2.1 < (best_path n T E a b tol).2.1 →
      calculate n T E a b ts true true tol = Except.ok (CalcResult.mk
        (some (approx_path n T E a b).1) (some (approx_path n T E a b).1)
        (some (approx_path n T E a b).2.2) (some (best_path n T E a b tol).2.2)
        (some (approx_path n T E a b).2.1) (some (approx_path n T E a b).2.1)
        (E.map_a_b (approx_path n T E a b).1.transpose (approx_path n T E a b).1
          true ts))) := by
  constructor
  · intro hle
    have hcond : (approx_path n T E a b).2.1 ≥ (best_path n T E a b tol).2.1 := hle
    simp [calculate, hda, hdb, hcond]
  · intro hlt
    have hcond : ¬ (approx_path n T E a b).2.1 ≥ (best_path n T E a b tol).2.1 := not_le.2 hlt
    simp [calculate, hda, hdb, hcond]

/-- Witness for `calculate_selects_lower_error`: on `ext_dim1` with
`A = [[2]]`, `B = [[1]]` the sign-search error `1` beats the approximate error
`2`, so the sign-search candidate is selected. -/
theorem calculate_selects_lower_error_w :
    calculate 1 Unit ext_dim1 !![2] !![1] false true true (1 / 10 ^ 12) = Except.ok (CalcResult.mk
      (some (approx_path 1 Unit ext_dim1 !![2] !![1]).1)
      (some (best_path 1 Unit ext_dim1 !![2] !![1] (1 / 10 ^ 12)).1)
      (some (approx_path 1 Unit ext_dim1 !![2] !![1]).2.2)
      (some (best_path 1 Unit ext_dim1 !![2] !![1] (1 / 10 ^ 12)).2.2)
      (some (approx_path 1 Unit ext_dim1 !![2] !![1]).2.1)
      (some (best_path 1 Unit ext_dim1 !![2] !![1] (1 / 10 ^ 12)).2.1)
      ()) := by
  have hbest : (best_path 1 Unit ext_dim1 !![2] !![1] (1 / 10 ^ 12)).2.1 = 1 := by
    show (sign_search 1 err_dim1 !![2] !![1] !![1] !![1] (1 / 10 ^ 12)).2 = 1
    rw [sign_search_two_one_value]
  have hle : (best_path 1 Unit ext_dim1 !![2] !![1] (1 / 10 ^ 12)).2.1 ≤
      (approx_path 1 Unit ext_dim1 !![2] !![1]).2.1 := by
    rw [hbest, approx_path_two_one_error]; norm_num
  exact (calculate_selects_lower_error 1 Unit ext_dim1 !![2] !![1] false (1 / 10 ^ 12)
    rfl rfl).1 hle

/-- C7: in the spectral-approximation path the alignment matrix is the
elementwise product `M = |U_A| ⊙ |U_B|'` of the entrywise absolute values of
the two eigenvector bases, `U_approx` is the one-sided orthogonal solver
applied to the pair `(identity, M)`, and afterwards every entry of magnitude
strictly below 1e-8 is set exactly to 0 while every other entry is kept
unchanged. -/
theorem approx_path_umeyama_snap (n : ℕ) (T : Type) (E : Externals n T)
    (a b : Mat n) (raw : Mat n)
    (hraw : raw = E.orthogonal_solve (1 : Mat n)
      (Matrix.of fun i j => |(E.eigenvalue_decomposition a).2 i j| *
        |(E.eigenvalue_decomposition b).2 j i|)) :
    ∀ i j, (approx_path n T E a b).1 i j = if |raw i j| < 1 / 10 ^ 8 then 0 else raw i j := by
  subst hraw
  intro i j
  rfl

/-- Witness for `approx_path_umeyama_snap`: on `ext_dim1` with
`A = B = [[0]]` the solver output is `[[0]]`, whose entry has magnitude below
1e-8 and is snapped to exactly 0. -/
theorem approx_path_umeyama_snap_w :
    (approx_path 1 Unit ext_dim1 !![0] !![0]).1 0 0 = 0 := by
  have hraw : (!![0] : Mat 1) = ext_dim1.orthogonal_solve (1 : Mat 1)
      (Matrix.of fun i j => |(ext_dim1.eigenvalue_decomposition !![0]).2 i j| *
        |(ext_dim1.eigenvalue_decomposition !![0]).2 j i|) := by
    ext i j
    fin_cases i
    fin_cases j
    simp [ext_dim1]
  rw [approx_path_umeyama_snap 1 Unit ext_dim1 !![0] !![0] !![0] hraw 0 0]
  norm_num

/-- C8: the transformed array reported for the approximate candidate is
`A · U_approx` and the one reported for the best candidate is the symmetric
conjugation `U_best' · A · U_best` of the preprocessed `array_a` by the
sign-search candidate (source lines 88 and 117); the last two conjuncts show
these are exactly the components returned by `calculate` when both candidates
are computed. -/
theorem calculate_transformed_arrays (n : ℕ) (T : Type) (E : Externals n T)
    (a b : Mat n) (ts : Bool) (tol : ℚ)
    (hda : E.is_diagonalizable a = true) (hdb : E.is_diagonalizable b = true) :
    (approx_path n T E a b).2.2 = a * (approx_path n T E a b).1 ∧
    (best_path n T E a b tol).2.2 =
      (best_path n T E a b tol).1.transpose * a * (best_path n T E a b tol).1 ∧
    Except.map (fun r => r.array_transformed_approx) (calculate n T E a b ts true true tol) =
      Except.ok (some (a * (approx_path n T E a b).1)) ∧
    Except.map (fun r => r.array_transformed_best) (calculate n T E a b ts true true tol) =
      Except.ok (some ((best_path n T E a b tol).1.transpose * a *
        (best_path n T E a b tol).1)) := by
  refine ⟨rfl, rfl, ?_, ?_⟩ <;> simp [calculate, hda, hdb] <;> rfl

/-- Witness for `calculate_transformed_arrays`, on `ext_dim1` with
`A = [[2]]`, `B = [[1]]`. -/
theorem calculate_transformed_arrays_w :
    (approx_path 1 Unit ext_dim1 !![2] !![1]).2.2 =
      !![2] * (approx_path 1 Unit ext_dim1 !![2] !![1]).1 :=
  (calculate_transformed_arrays 1 Unit ext_dim1 !![2] !![1] false (1 / 10 ^ 12) rfl rfl).1

/-- C9: `calculate` raises the configuration ValueError when neither
transformation is selected (first conjunct: both flags `False`), and returns
normally with a 7-tuple whenever at least one candidate is effectively
computed - the best candidate is requested, or the approximate candidate is
requested and survives the diagonalizability demotion (second conjunct). -/
theorem calculate_requires_candidate (n : ℕ) (T : Type) (E : Externals n T)
    (a b : Mat n) (ts : Bool) (tol : ℚ) :
    calculate n T E a b ts false false tol =
      Except.error " Cannot complete analysis. You must select at least one transformation." ∧
    (∀ ra rb : Bool,
      ((ra && E.is_diagonalizable a && E.is_diagonalizable b) || rb) = true →
      (calculate n T E a b ts ra rb tol).isOk = true) := by
  constructor
  · simp [calculate]
  · intro ra rb h
    cases ra <;> cases rb <;>
      cases hda : E.is_diagonalizable a <;> cases hdb : E.is_diagonalizable b <;>
      simp_all [calculate, Except.isOk, Except.toBool]

/-- Witness for `calculate_requires_candidate`: a call with the best candidate
requested returns normally. -/
theorem calculate_requires_candidate_w :
    (calculate 1 Unit ext_dim1 !![2] !![1] false false true (1 / 10 ^ 12)).isOk = true :=
  (calculate_requires_candidate 1 Unit ext_dim1 !![2] !![1] false (1 / 10 ^ 12)).2
    false true (by simp)

/-- C10: `calculate` is deterministic and keeps no hidden mutable state: the
only object field it writes is `self.transformation`, so invoking the method a
second time, on the object state left behind by a first invocation with the
same inputs, flags and tolerance, produces exactly the same 7-tuple and the
same final state (the embedding is a pure function of its inputs, mirroring
the absence of randomness or retries in the source). -/
theorem calculate_obj_idempotent (n : ℕ) (T : Type) (E : Externals n T)
    (s : ObjState n T) (ra rb : Bool) (tol : ℚ) :
    calculate_obj n T E (calculate_obj n T E s ra rb tol).2 ra rb tol =
      calculate_obj n T E s ra rb tol := by
  cases hc : calculate n T E s.array_a s.array_b s.translate_symmetrically ra rb tol with
  | ok r => simp [calculate_obj, hc]
  | error e => simp [calculate_obj, hc]
